import Mathlib

/-!
Formal model of the registration-form repository: the two age calculators
(src/utils/module.js with an injectable reference date, and src/module.js which
reads the wall clock and uses elapsed-millisecond arithmetic), the field
validators (src/utils/validator.js) and the form-level validity derivation
(src/component/Form.jsx).

Modelling conventions:
- A well-formed JS Date value is abstracted to the civil calendar fields its
  accessors expose (getFullYear, zero-based getMonth, one-based getDate)
  together with the millisecond offset inside that day.  Comparing two Date
  objects compares epoch milliseconds, which on such field tuples is the
  lexicographic order; the civil fields of any Date built from an actual
  timestamp always denote a real calendar date, a semantic invariant that
  theorems carry as an explicit IsRealDate hypothesis.
- Wall-clock reads (new Date() with no argument) become an explicit parameter
  of the embedded function, representing the clock value at call time.
- Thrown errors become the Except error channel.
-/

set_option maxRecDepth 4000

deriving instance DecidableEq for Except

/-- Civil calendar fields as exposed by the JS Date accessors: the full year,
the zero-based month (January is 0) and the one-based day of the month. -/
structure CivilDate where
  year : Int
  month : Nat
  day : Nat
deriving DecidableEq

/-- Gregorian leap-year rule, as implemented by the JS Date object. -/
def isLeapYear (y : Int) : Bool :=
  y % 4 == 0 && (y % 100 != 0 || y % 400 == 0)

/-- Number of days of the zero-based month m in year y. -/
def daysInMonth (y : Int) (m : Nat) : Nat :=
  if m = 1 then (if isLeapYear y then 29 else 28)
  else if m = 3 ∨ m = 5 ∨ m = 8 ∨ m = 10 then 30
  else 31

/-- The field triple denotes a real calendar date: the month index is at most
11 and the day lies between 1 and the length of that month. -/
def IsRealDate (c : CivilDate) : Prop :=
  c.month ≤ 11 ∧ 1 ≤ c.day ∧ c.day ≤ daysInMonth c.year c.month

instance (c : CivilDate) : Decidable (IsRealDate c) := by
  unfold IsRealDate; exact inferInstance

/-- A well-formed JS Date value (one whose time value is not NaN), abstracted
to its civil calendar fields plus the millisecond offset within the day.
The field names follow the JS accessor names. -/
structure JSDate where
  getFullYear : Int
  getMonth : Nat
  getDate : Nat
  msOfDay : Nat
deriving DecidableEq

/-- The civil calendar fields of a Date value. -/
def JSDate.toCivil (d : JSDate) : CivilDate :=
  ⟨d.getFullYear, d.getMonth, d.getDate⟩

/-- Strict order a < b on Date values.  JS compares epoch milliseconds; on the
field abstraction this is the lexicographic order on
(year, month, day, ms-of-day). -/
def dateLt (a b : JSDate) : Prop :=
  a.getFullYear < b.getFullYear ∨
    (a.getFullYear = b.getFullYear ∧ (a.getMonth < b.getMonth ∨
      (a.getMonth = b.getMonth ∧ (a.getDate < b.getDate ∨
        (a.getDate = b.getDate ∧ a.msOfDay < b.msOfDay)))))

instance (a b : JSDate) : Decidable (dateLt a b) := by
  unfold dateLt; exact inferInstance

theorem daysInMonth_pos (y : Int) (m : Nat) : 0 < daysInMonth y m := by
  unfold daysInMonth
  split
  · split <;> omega
  · split <;> omega

/-- Day-overflow normalisation of the JS Date constructor: starting from day
d (one-based) of the zero-based month m of year y, roll any excess days into
the following months.  The fuel argument bounds the recursion; every step
removes at least 28 days, so fuel equal to the day count always suffices. -/
def rollDaysAux (fuel : Nat) (y : Int) (m : Nat) (d : Nat) : CivilDate :=
  match fuel with
  | 0 => ⟨y, m, d⟩
  | fuel' + 1 =>
    if daysInMonth y m < d then
      rollDaysAux fuel' (if m = 11 then y + 1 else y) ((m + 1) % 12) (d - daysInMonth y m)
    else ⟨y, m, d⟩

/-- Model of the JS constructor call new Date(y, m, day) as used by both age
calculators, for the accessor range day ≥ 1: a year argument between 0 and 99
is read as 1900 + y, a month at or beyond 12 rolls into later years, and a day
beyond the month length rolls into the following months rather than failing. -/
def mkDate (y : Int) (m : Nat) (d : Nat) : CivilDate :=
  let yy : Int := if 0 ≤ y ∧ y ≤ 99 then 1900 + y else y
  rollDaysAux d (yy + (m / 12 : Nat)) (m % 12) d

/-- The value found in the birth property of the subject: either not a Date
instance at all (undefined, null, a plain object, a number, ...), a Date whose
time value is NaN (such as new Date of an unparsable string), or a
well-formed Date. -/
inductive BirthVal where
  | notDate : BirthVal
  | invalidDate : BirthVal
  | date : JSDate → BirthVal
deriving DecidableEq

/-- The subject argument of the age calculators: a falsy value (missing
argument, undefined, null, ...) for which the guard on p fires, or an object
that may or may not carry a birth property. -/
inductive Subject where
  | nullish : Subject
  | obj : Option BirthVal → Subject
deriving DecidableEq

namespace UtilsModule

/-- calculateAge of src/utils/module.js: whole-years age of the subject at the
injectable reference date (the currentDate parameter, defaulting at the JS
call site to the clock).  The local constant existingDate of the source is
inlined into the calendar-validity test. -/
def calculateAge (p : Subject) (currentDate : JSDate) : Except String Int :=
  match p with
  | .nullish => .error ("missing param p")
  | .obj none => .error ("missing birth field")
  | .obj (some .notDate) => .error ("birth must be a valid Date")
  | .obj (some .invalidDate) => .error ("birth must be a valid Date")
  | .obj (some (.date birth)) =>
    if birth.getFullYear < 1970 then .error ("invalid date")
    else if dateLt currentDate birth then .error ("invalid date")
    else if (mkDate birth.getFullYear birth.getMonth birth.getDate).year ≠ birth.getFullYear ∨
        (mkDate birth.getFullYear birth.getMonth birth.getDate).month ≠ birth.getMonth ∨
        (mkDate birth.getFullYear birth.getMonth birth.getDate).day ≠ birth.getDate then
      .error ("invalid date")
    else
      if birth.getMonth < currentDate.getMonth ∨
          (currentDate.getMonth = birth.getMonth ∧ birth.getDate ≤ currentDate.getDate) then
        .ok (currentDate.getFullYear - birth.getFullYear)
      else
        .ok (currentDate.getFullYear - birth.getFullYear - 1)

end UtilsModule

/-- Days since the Unix epoch of a civil date (proleptic Gregorian), the
inverse direction of the civil-from-days computation below. -/
def daysFromCivil (c : CivilDate) : Int :=
  let m : Int := (c.month : Int) + 1
  let y : Int := if m ≤ 2 then c.year - 1 else c.year
  let era : Int := (if 0 ≤ y then y else y - 399) / 400
  let yoe : Int := y - era * 400
  let doy : Int := (153 * (m + (if 2 < m then -3 else 9)) + 2) / 5 + (c.day : Int) - 1
  let doe : Int := yoe * 365 + yoe / 4 - yoe / 100 + doy
  era * 146097 + doe - 719468

/-- Civil date of a day count since the Unix epoch (proleptic Gregorian),
with a zero-based month in the result. -/
def civilFromDays (z0 : Int) : CivilDate :=
  let z : Int := z0 + 719468
  let era : Int := (if 0 ≤ z then z else z - 146096) / 146097
  let doe : Int := z - era * 146097
  let yoe : Int := (doe - doe / 1460 + doe / 36524 - doe / 146096) / 365
  let y : Int := yoe + era * 400
  let doy : Int := doe - (365 * yoe + yoe / 4 - yoe / 100)
  let mp : Int := (5 * doy + 2) / 153
  let d : Int := doy - (153 * mp + 2) / 5 + 1
  let m : Int := if mp < 10 then mp + 3 else mp - 9
  ⟨(if m ≤ 2 then y + 1 else y), (m - 1).toNat, d.toNat⟩

def msPerDay : Int := 86400000

/-- Epoch milliseconds of a Date value (time zone abstracted away; both dates
of a subtraction live in the same zone, so the offsets cancel). -/
def msValue (d : JSDate) : Int :=
  daysFromCivil d.toCivil * msPerDay + (d.msOfDay : Int)

/-- getUTCFullYear of the Date whose time value is the given millisecond
count: the year of the civil date of the floored day count. -/
def utcFullYearOfMs (t : Int) : Int :=
  (civilFromDays (Int.fdiv t msPerDay)).year

namespace RootModule

/-- calculateAge of src/module.js: same guards as the utils version, but the
reference date is always the wall clock (modelled by the explicit now
parameter) and the returned age is the elapsed-millisecond year offset
Math.abs(new Date(now - birth).getUTCFullYear() - 1970). -/
def calculateAge (p : Subject) (now : JSDate) : Except String Int :=
  match p with
  | .nullish => .error ("missing param p")
  | .obj none => .error ("missing birth field")
  | .obj (some .notDate) => .error ("birth must be a valid Date")
  | .obj (some .invalidDate) => .error ("birth must be a valid Date")
  | .obj (some (.date birth)) =>
    if birth.getFullYear < 1970 then .error ("invalid date")
    else if dateLt now birth then .error ("invalid date")
    else if (mkDate birth.getFullYear birth.getMonth birth.getDate).year ≠ birth.getFullYear ∨
        (mkDate birth.getFullYear birth.getMonth birth.getDate).month ≠ birth.getMonth ∨
        (mkDate birth.getFullYear birth.getMonth birth.getDate).day ≠ birth.getDate then
      .error ("invalid date")
    else
      .ok (((utcFullYearOfMs (msValue now - msValue birth) - 1970).natAbs : Int))

end RootModule

/-- A string-typed argument of a field validator: either not a string at all
(the typeof guard fires) or a string, carried as its character list. -/
inductive StrInput where
  | notString : StrInput
  | str : List Char → StrInput
deriving DecidableEq

namespace Validator

/-- The structured failure value thrown by the field validators of
src/utils/validator.js. -/
structure VError where
  code : String
  message : String
deriving DecidableEq

/-- Character class [A-Za-zÀ-ÖØ-öø-ÿ\-] of the identity regex: Latin letters,
the accented Latin ranges, and the hyphen. -/
def isNameChar (c : Char) : Bool :=
  ('A' ≤ c && c ≤ 'Z') || ('a' ≤ c && c ≤ 'z') ||
  ('À' ≤ c && c ≤ 'Ö') || ('Ø' ≤ c && c ≤ 'ö') || ('ø' ≤ c && c ≤ 'ÿ') || c = '-'

/-- Whitespace as matched by the regex class backslash-s, restricted to the
ASCII whitespace characters that can occur in the modelled inputs. -/
def isSpaceChar (c : Char) : Bool :=
  c = ' ' || c = '\t' || c = '\n' || c = '\r' || c = '\x0b' || c = '\x0c'

/-- Character class of the town regex: the identity class plus whitespace. -/
def isTownChar (c : Char) : Bool :=
  isNameChar c || isSpaceChar c

/-- Test of the XSS regex of validateIdentity.  The pattern is an unanchored
open angle bracket followed by a star of non-closing-bracket characters; the
star may match the empty run, so the pattern matches exactly the strings that
contain an open angle bracket at all. -/
def xssTest (s : List Char) : Bool :=
  s.any (fun c => c = '<')

/-- Test of the anchored regex of validateIdentity: one or more characters,
all from the identity character class. -/
def nameFormatTest (s : List Char) : Bool :=
  !s.isEmpty && s.all isNameChar

/-- Test of the anchored regex of validateTown: one or more characters, all
from the town character class. -/
def townFormatTest (s : List Char) : Bool :=
  !s.isEmpty && s.all isTownChar

/-- Test of the anchored post-code regex: exactly five ASCII digits. -/
def postCodeFormatTest (s : List Char) : Bool :=
  s.length == 5 && s.all Char.isDigit

/-- Character class of the local part of the email regex:
[a-zA-Z0-9._-]. -/
def isLocalChar (c : Char) : Bool :=
  c.isAlpha || c.isDigit || c = '.' || c = '_' || c = '-'

/-- Character class of the domain part of the email regex: [a-zA-Z0-9.-]. -/
def isDomainChar (c : Char) : Bool :=
  c.isAlpha || c.isDigit || c = '.' || c = '-'

/-- Character class of the final label of the email regex: [a-zA-Z]. -/
def isTldChar (c : Char) : Bool :=
  c.isAlpha

/-- Split a character list at the first occurrence of sep: returns the part
before that occurrence and the part after it, or none when sep is absent. -/
def splitFirst (sep : Char) : List Char → Option (List Char × List Char)
  | [] => none
  | c :: cs =>
    if c = sep then some ([], cs)
    else
      match splitFirst sep cs with
      | none => none
      | some (pre, suf) => some (c :: pre, suf)

/-- Matcher for the anchored email regex
local at-sign domain dot tld.  The local class contains no at-sign, so the
at-sign of any match is the first one of the string; the final label contains
no dot, so its dot is the last one after the at-sign.  The matcher therefore
splits at the first at-sign and at the last following dot and checks the three
parts against their classes. -/
def emailMatch (s : List Char) : Bool :=
  match splitFirst '@' s with
  | none => false
  | some (locPart, rest) =>
    match splitFirst '.' rest.reverse with
    | none => false
    | some (revTld, revDom) =>
      !locPart.isEmpty && locPart.all isLocalChar &&
      !revDom.isEmpty && revDom.all isDomainChar &&
      decide (2 ≤ revTld.length) && revTld.all isTldChar

/-- validateAge of src/utils/validator.js.  The source reads the wall clock
internally; the embedding makes that read an explicit now parameter. -/
def validateAge (birth : BirthVal) (now : JSDate) : Except VError Unit :=
  match birth with
  | .notDate => .error ⟨"INVALID_DATE", "Birth date is invalid"⟩
  | .invalidDate => .error ⟨"INVALID_DATE", "Birth date is invalid"⟩
  | .date b =>
    if dateLt now b then .error ⟨"INVALID_DATE", "Birth date cannot be in the future"⟩
    else
      if b.getMonth < now.getMonth ∨
          (now.getMonth = b.getMonth ∧ b.getDate ≤ now.getDate) then
        if now.getFullYear - b.getFullYear < 18 then
          .error ⟨"INVALID_AGE", "Must be at least 18 years old"⟩
        else .ok ()
      else
        if now.getFullYear - b.getFullYear - 1 < 18 then
          .error ⟨"INVALID_AGE", "Must be at least 18 years old"⟩
        else .ok ()

/-- validatePostCode of src/utils/validator.js. -/
def validatePostCode (pc : StrInput) : Except VError Unit :=
  match pc with
  | .notString => .error ⟨"INVALID_POST_CODE", "Invalid post code"⟩
  | .str s =>
    if postCodeFormatTest s then .ok ()
    else .error ⟨"INVALID_POST_CODE", "Invalid post code"⟩

/-- validateIdentity of src/utils/validator.js: type guard, then the XSS
test, then the character-class test. -/
def validateIdentity (name : StrInput) : Except VError Unit :=
  match name with
  | .notString => .error ⟨"INVALID_IDENTITY", "Invalid name"⟩
  | .str s =>
    if xssTest s then .error ⟨"INVALID_IDENTITY", "XSS detected"⟩
    else if nameFormatTest s then .ok ()
    else .error ⟨"INVALID_IDENTITY", "Invalid characters in name"⟩

/-- validateEmail of src/utils/validator.js. -/
def validateEmail (email : StrInput) : Except VError Unit :=
  match email with
  | .notString => .error ⟨"INVALID_EMAIL", "Invalid email format"⟩
  | .str s =>
    if emailMatch s then .ok ()
    else .error ⟨"INVALID_EMAIL", "Invalid email format"⟩

/-- validateTown of src/utils/validator.js. -/
def validateTown (town : StrInput) : Except VError Unit :=
  match town with
  | .notString => .error ⟨"INVALID_TOWN", "Invalid town name"⟩
  | .str s =>
    if townFormatTest s then .ok ()
    else .error ⟨"INVALID_TOWN", "Invalid town name"⟩

end Validator

namespace Form

/-- The six string-valued fields of the registration form state. -/
structure FormState where
  lastname : List Char
  firstname : List Char
  email : List Char
  birth : List Char
  postCode : List Char
  town : List Char
deriving DecidableEq

/-- The field names dispatched on by validateField. -/
inductive FieldName where
  | lastname | firstname | email | birth | postCode | town
deriving DecidableEq

/-- The emptiness test of validateForm applied to a string field value:
the value is the empty string or trims to the empty string, which for a
string holds exactly when every character is whitespace. -/
def isBlank (s : List Char) : Bool :=
  s.all Validator.isSpaceChar

/-- The message the catch clause of validateField reports for a thrown
validator failure: err.message, with err.code as a fallback; every failure
value of the validators carries a nonempty message, so the message is used. -/
def toMsg (e : Except Validator.VError Unit) : Option String :=
  match e with
  | .ok _ => none
  | .error err => some err.message

/-- validateField of Form.jsx: dispatch the field value to its validator and
return the thrown message, if any.  The birth branch first rejects a falsy
(empty) value, then parses the string into a Date via new Date(value),
modelled by the parse parameter, and applies validateAge, whose internal
clock read is the now parameter. -/
def validateField (now : JSDate) (parse : List Char → BirthVal) :
    FieldName → List Char → Option String
  | .email, v => toMsg (Validator.validateEmail (.str v))
  | .lastname, v => toMsg (Validator.validateIdentity (.str v))
  | .firstname, v => toMsg (Validator.validateIdentity (.str v))
  | .birth, v =>
    if v = [] then some ("Birth is required")
    else toMsg (Validator.validateAge (parse v) now)
  | .postCode, v => toMsg (Validator.validatePostCode (.str v))
  | .town, v => toMsg (Validator.validateTown (.str v))

/-- The per-field entry validateForm stores in newErrors: the required-field
message when the value is blank, otherwise whatever validateField reports. -/
def fieldNewError (now : JSDate) (parse : List Char → BirthVal)
    (name : FieldName) (v : List Char) : Option String :=
  if isBlank v then some ("This field is required")
  else validateField now parse name v

/-- The allFilled flag of validateForm: every field value is non-blank. -/
def allFilled (f : FormState) : Bool :=
  !isBlank f.lastname && !isBlank f.firstname && !isBlank f.email &&
  !isBlank f.birth && !isBlank f.postCode && !isBlank f.town

/-- The noErrors flag of validateForm: newErrors has no entry for any of the
six fields. -/
def noErrors (now : JSDate) (parse : List Char → BirthVal) (f : FormState) : Bool :=
  (fieldNewError now parse .lastname f.lastname).isNone &&
  (fieldNewError now parse .firstname f.firstname).isNone &&
  (fieldNewError now parse .email f.email).isNone &&
  (fieldNewError now parse .birth f.birth).isNone &&
  (fieldNewError now parse .postCode f.postCode).isNone &&
  (fieldNewError now parse .town f.town).isNone

/-- The derived validity flag setIsValid stores, which gates the submit
button and the submit handler alike: allFilled and noErrors. -/
def submittable (now : JSDate) (parse : List Char → BirthVal) (f : FormState) : Bool :=
  allFilled f && noErrors now parse f

end Form

/-- Calendar successor of a civil date, used to state the day one past an
exact anniversary boundary. -/
def nextDay (c : CivilDate) : CivilDate :=
  if c.day < daysInMonth c.year c.month then ⟨c.year, c.month, c.day + 1⟩
  else if c.month < 11 then ⟨c.year, c.month + 1, 1⟩
  else ⟨c.year + 1, 0, 1⟩

theorem mkDate_of_real (c : CivilDate) (hreal : IsRealDate c)
    (hy : ¬(0 ≤ c.year ∧ c.year ≤ 99)) : mkDate c.year c.month c.day = c := by
  obtain ⟨y, m, d⟩ := c
  unfold IsRealDate at hreal
  dsimp only at hreal hy
  obtain ⟨hm, hd1, hd2⟩ := hreal
  simp only [mkDate, if_neg hy]
  have h12a : m / 12 = 0 := Nat.div_eq_of_lt (by omega)
  have h12b : m % 12 = m := Nat.mod_eq_of_lt (by omega)
  rw [h12a, h12b]
  simp only [Nat.cast_zero, add_zero]
  cases d with
  | zero => omega
  | succ k =>
    simp only [rollDaysAux]
    rw [if_neg (by omega)]

/-- C10: in both calculateAge implementations the final calendar-validity
branch is unreachable: for a well-formed birth Date (whose civil fields,
by Date semantics, denote a real calendar date) that passed the year guard,
rebuilding a Date from its own year, month and day fields reproduces those
fields, so whenever the two earlier guards also pass both implementations
return an age. -/
theorem claim10_calendar_check_unreachable (birth cur : JSDate)
    (hreal : IsRealDate birth.toCivil) (hy : 1970 ≤ birth.getFullYear) :
    mkDate birth.getFullYear birth.getMonth birth.getDate = birth.toCivil ∧
    (¬ dateLt cur birth →
      ∃ n, UtilsModule.calculateAge (.obj (some (.date birth))) cur = .ok n) ∧
    (¬ dateLt cur birth →
      ∃ n, RootModule.calculateAge (.obj (some (.date birth))) cur = .ok n) := by
  have h99 : ¬(0 ≤ birth.toCivil.year ∧ birth.toCivil.year ≤ 99) := by
    simp only [JSDate.toCivil]; omega
  have hmk := mkDate_of_real birth.toCivil hreal h99
  simp only [JSDate.toCivil] at hmk
  refine ⟨by simp only [JSDate.toCivil]; exact hmk, ?_, ?_⟩
  · intro hlt
    simp only [UtilsModule.calculateAge]
    rw [if_neg (by omega), if_neg hlt, hmk]
    simp only [JSDate.toCivil]
    rw [if_neg (by simp)]
    split <;> exact ⟨_, rfl⟩
  · intro hlt
    simp only [RootModule.calculateAge]
    rw [if_neg (by omega), if_neg hlt, hmk]
    simp only [JSDate.toCivil]
    rw [if_neg (by simp)]
    exact ⟨_, rfl⟩

theorem claim10_calendar_check_unreachable_witness :
    IsRealDate (JSDate.toCivil ⟨1991, 10, 7, 0⟩) ∧
    (1970 : Int) ≤ 1991 ∧
    (mkDate 1991 10 7 = JSDate.toCivil ⟨1991, 10, 7, 0⟩ ∧
      (¬ dateLt ⟨2026, 11, 1, 0⟩ ⟨1991, 10, 7, 0⟩ →
        ∃ n, UtilsModule.calculateAge (.obj (some (.date ⟨1991, 10, 7, 0⟩))) ⟨2026, 11, 1, 0⟩ = .ok n) ∧
      (¬ dateLt ⟨2026, 11, 1, 0⟩ ⟨1991, 10, 7, 0⟩ →
        ∃ n, RootModule.calculateAge (.obj (some (.date ⟨1991, 10, 7, 0⟩))) ⟨2026, 11, 1, 0⟩ = .ok n)) :=
  ⟨by decide, by norm_num,
    claim10_calendar_check_unreachable ⟨1991, 10, 7, 0⟩ ⟨2026, 11, 1, 0⟩ (by decide) (by norm_num)⟩

/-- C1: on a subject whose birth is a well-formed Date with year at least
1970, not after the reference date, denoting a real calendar date, the utils
calculateAge returns the year difference, decremented by one exactly when the
(month, day) pair of the reference date is lexicographically below that of the
birth date; in particular birth 1991-11-07 against reference 2026-12-01
yields 35. -/
theorem claim1_calculateAge_age_formula :
    (∀ (birth cur : JSDate), IsRealDate birth.toCivil → 1970 ≤ birth.getFullYear →
      ¬ dateLt cur birth →
      UtilsModule.calculateAge (.obj (some (.date birth))) cur =
        .ok (cur.getFullYear - birth.getFullYear -
          (if cur.getMonth < birth.getMonth ∨
              (cur.getMonth = birth.getMonth ∧ cur.getDate < birth.getDate)
           then 1 else 0))) ∧
    UtilsModule.calculateAge (.obj (some (.date ⟨1991, 10, 7, 0⟩))) ⟨2026, 11, 1, 0⟩ = .ok 35 := by
  constructor
  · intro birth cur hreal hy hlt
    have h99 : ¬(0 ≤ birth.toCivil.year ∧ birth.toCivil.year ≤ 99) := by
      simp only [JSDate.toCivil]; omega
    have hmk := mkDate_of_real birth.toCivil hreal h99
    simp only [JSDate.toCivil] at hmk
    simp only [UtilsModule.calculateAge]
    rw [if_neg (by omega), if_neg hlt, hmk]
    simp only [JSDate.toCivil]
    rw [if_neg (by simp)]
    split_ifs <;> simp only [Except.ok.injEq] <;> omega
  · decide

theorem claim1_calculateAge_age_formula_witness :
    IsRealDate (JSDate.toCivil ⟨1995, 1, 28, 0⟩) ∧
    (1970 : Int) ≤ 1995 ∧
    ¬ dateLt ⟨2020, 1, 27, 0⟩ ⟨1995, 1, 28, 0⟩ ∧
    UtilsModule.calculateAge (.obj (some (.date ⟨1995, 1, 28, 0⟩))) ⟨2020, 1, 27, 0⟩ = .ok 24 := by
  refine ⟨by decide, by norm_num, by decide, ?_⟩
  exact (claim1_calculateAge_age_formula.1 ⟨1995, 1, 28, 0⟩ ⟨2020, 1, 27, 0⟩
    (by decide) (by norm_num) (by decide)).trans (by decide)

/-- C2: the utils calculateAge fails exactly with the four listed messages in
their checking order: missing param p for a falsy subject, missing birth field
for an object without the property, birth must be a valid Date for a non-Date
or NaN birth, and invalid date when the birth year precedes 1970, the birth
lies after the reference date, or the fields are not a real calendar date;
every other error message is impossible and on every remaining input an age
is returned.  The hypothesis records the Date-semantics invariant that the
fields of a well-formed Date denote a real calendar date. -/
theorem claim2_calculateAge_error_cases (p : Subject) (cur : JSDate)
    (hreal : ∀ b, p = Subject.obj (some (BirthVal.date b)) → IsRealDate b.toCivil) :
    (UtilsModule.calculateAge p cur = .error ("missing param p") ↔ p = .nullish) ∧
    (UtilsModule.calculateAge p cur = .error ("missing birth field") ↔ p = .obj none) ∧
    (UtilsModule.calculateAge p cur = .error ("birth must be a valid Date") ↔
      (p = .obj (some .notDate) ∨ p = .obj (some .invalidDate))) ∧
    (UtilsModule.calculateAge p cur = .error ("invalid date") ↔
      (∃ b, p = .obj (some (.date b)) ∧
        (b.getFullYear < 1970 ∨ dateLt cur b ∨ ¬ IsRealDate b.toCivil))) ∧
    (∀ s, UtilsModule.calculateAge p cur = .error s →
      s = "missing param p" ∨ s = "missing birth field" ∨
      s = "birth must be a valid Date" ∨ s = "invalid date") ∧
    (∀ b, p = .obj (some (.date b)) → ¬ b.getFullYear < 1970 → ¬ dateLt cur b →
      ∃ n, UtilsModule.calculateAge p cur = .ok n) := by
  cases p with
  | nullish =>
    refine ⟨by simp [UtilsModule.calculateAge], ?_, ?_, ?_, ?_, ?_⟩
    · simp [UtilsModule.calculateAge]
    · simp [UtilsModule.calculateAge]
    · simp only [UtilsModule.calculateAge]
      constructor
      · intro h; exact absurd (Except.error.inj h) (by decide)
      · rintro ⟨b, hb, hcond⟩; exact (nomatch hb)
    · intro s hs
      simp only [UtilsModule.calculateAge] at hs
      exact Or.inl (Except.error.inj hs).symm
    · intro b hb; exact (nomatch hb)
  | obj ob =>
    cases ob with
    | none =>
      refine ⟨?_, by simp [UtilsModule.calculateAge], ?_, ?_, ?_, ?_⟩
      · simp only [UtilsModule.calculateAge]
        constructor
        · intro h; exact absurd (Except.error.inj h) (by decide)
        · intro h; exact (nomatch h)
      · simp only [UtilsModule.calculateAge]
        constructor
        · intro h; exact absurd (Except.error.inj h) (by decide)
        · rintro (h | h) <;> exact (nomatch h)
      · simp only [UtilsModule.calculateAge]
        constructor
        · intro h; exact absurd (Except.error.inj h) (by decide)
        · rintro ⟨b, hb, hcond⟩; exact (nomatch hb)
      · intro s hs
        simp only [UtilsModule.calculateAge] at hs
        exact Or.inr (Or.inl (Except.error.inj hs).symm)
      · intro b hb; exact (nomatch hb)
    | some bv =>
      cases bv with
      | notDate =>
        refine ⟨?_, ?_, by simp [UtilsModule.calculateAge], ?_, ?_, ?_⟩
        · simp only [UtilsModule.calculateAge]
          constructor
          · intro h; exact absurd (Except.error.inj h) (by decide)
          · intro h; exact (nomatch h)
        · simp only [UtilsModule.calculateAge]
          constructor
          · intro h; exact absurd (Except.error.inj h) (by decide)
          · intro h; exact (nomatch h)
        · simp only [UtilsModule.calculateAge]
          constructor
          · intro h; exact absurd (Except.error.inj h) (by decide)
          · rintro ⟨b, hb, hcond⟩; exact (nomatch hb)
        · intro s hs
          simp only [UtilsModule.calculateAge] at hs
          exact Or.inr (Or.inr (Or.inl (Except.error.inj hs).symm))
        · intro b hb; exact (nomatch hb)
      | invalidDate =>
        refine ⟨?_, ?_, by simp [UtilsModule.calculateAge], ?_, ?_, ?_⟩
        · simp only [UtilsModule.calculateAge]
          constructor
          · intro h; exact absurd (Except.error.inj h) (by decide)
          · intro h; exact (nomatch h)
        · simp only [UtilsModule.calculateAge]
          constructor
          · intro h; exact absurd (Except.error.inj h) (by decide)
          · intro h; exact (nomatch h)
        · simp only [UtilsModule.calculateAge]
          constructor
          · intro h; exact absurd (Except.error.inj h) (by decide)
          · rintro ⟨b, hb, hcond⟩; exact (nomatch hb)
        · intro s hs
          simp only [UtilsModule.calculateAge] at hs
          exact Or.inr (Or.inr (Or.inl (Except.error.inj hs).symm))
        · intro b hb; exact (nomatch hb)
      | date b =>
        have hrealb : IsRealDate b.toCivil := hreal b rfl
        by_cases h1 : b.getFullYear < 1970
        · have hc : UtilsModule.calculateAge (.obj (some (.date b))) cur = .error ("invalid date") := by
            simp only [UtilsModule.calculateAge]; rw [if_pos h1]
          rw [hc]
          refine ⟨?_, ?_, ?_, ?_, ?_, ?_⟩
          · constructor
            · intro h; exact absurd (Except.error.inj h) (by decide)
            · intro h; exact (nomatch h)
          · constructor
            · intro h; exact absurd (Except.error.inj h) (by decide)
            · intro h; exact (nomatch h)
          · constructor
            · intro h; exact absurd (Except.error.inj h) (by decide)
            · rintro (h | h) <;> exact (nomatch h)
          · constructor
            · intro _; exact ⟨b, rfl, Or.inl h1⟩
            · intro _; rfl
          · intro s hs
            exact Or.inr (Or.inr (Or.inr (Except.error.inj hs).symm))
          · intro b2 hb2 hy2 _
            cases hb2; exact absurd h1 hy2
        · by_cases h2 : dateLt cur b
          · have hc : UtilsModule.calculateAge (.obj (some (.date b))) cur = .error ("invalid date") := by
              simp only [UtilsModule.calculateAge]; rw [if_neg h1, if_pos h2]
            rw [hc]
            refine ⟨?_, ?_, ?_, ?_, ?_, ?_⟩
            · constructor
              · intro h; exact absurd (Except.error.inj h) (by decide)
              · intro h; exact (nomatch h)
            · constructor
              · intro h; exact absurd (Except.error.inj h) (by decide)
              · intro h; exact (nomatch h)
            · constructor
              · intro h; exact absurd (Except.error.inj h) (by decide)
              · rintro (h | h) <;> exact (nomatch h)
            · constructor
              · intro _; exact ⟨b, rfl, Or.inr (Or.inl h2)⟩
              · intro _; rfl
            · intro s hs
              exact Or.inr (Or.inr (Or.inr (Except.error.inj hs).symm))
            · intro b2 hb2 _ hlt2
              cases hb2; exact absurd h2 hlt2
          · have h99 : ¬(0 ≤ b.toCivil.year ∧ b.toCivil.year ≤ 99) := by
              simp only [JSDate.toCivil]; omega
            have hmk := mkDate_of_real b.toCivil hrealb h99
            simp only [JSDate.toCivil] at hmk
            have hok : ∃ n, UtilsModule.calculateAge (.obj (some (.date b))) cur = .ok n := by
              simp only [UtilsModule.calculateAge]
              rw [if_neg h1, if_neg h2, hmk]
              simp only [JSDate.toCivil]
              rw [if_neg (by simp)]
              split <;> exact ⟨_, rfl⟩
            obtain ⟨n, hc⟩ := hok
            rw [hc]
            refine ⟨?_, ?_, ?_, ?_, ?_, ?_⟩
            · constructor
              · intro h; exact (nomatch h)
              · intro h; exact (nomatch h)
            · constructor
              · intro h; exact (nomatch h)
              · intro h; exact (nomatch h)
            · constructor
              · intro h; exact (nomatch h)
              · rintro (h | h) <;> exact (nomatch h)
            · constructor
              · intro h; exact (nomatch h)
              · rintro ⟨b2, hb2, hcond⟩
                cases hb2
                rcases hcond with h | h | h
                · exact absurd h h1
                · exact absurd h h2
                · exact absurd hrealb h
            · intro s hs; exact (nomatch hs)
            · intro b2 hb2 _ _; exact ⟨n, rfl⟩

theorem claim2_calculateAge_error_cases_witness :
    (∀ b, Subject.obj (some (BirthVal.date ⟨1969, 11, 31, 0⟩)) = Subject.obj (some (BirthVal.date b)) →
      IsRealDate b.toCivil) ∧
    UtilsModule.calculateAge (.obj (some (.date ⟨1969, 11, 31, 0⟩))) ⟨2020, 5, 15, 0⟩ =
      .error ("invalid date") := by
  have hreal : ∀ b, Subject.obj (some (BirthVal.date ⟨1969, 11, 31, 0⟩)) = Subject.obj (some (BirthVal.date b)) →
      IsRealDate b.toCivil := by
    intro b hb
    cases hb
    decide
  refine ⟨hreal, ?_⟩
  exact (claim2_calculateAge_error_cases (.obj (some (.date ⟨1969, 11, 31, 0⟩))) ⟨2020, 5, 15, 0⟩ hreal).2.2.2.1.mpr
    ⟨⟨1969, 11, 31, 0⟩, rfl, Or.inl (by norm_num)⟩

/-- C3 counterexample: the claim says the elapsed-millisecond implementation
of calculateAge (src/module.js) has no pre-1970 guard, so it would accept a
well-formed birth of 1969-12-31 that lies before the clock date; in fact it
rejects it with the invalid date error, because it carries the same guard as
the calendar-field implementation. -/
theorem claim3_counterexample :
    RootModule.calculateAge (.obj (some (.date ⟨1969, 11, 31, 0⟩))) ⟨2020, 5, 15, 0⟩ =
      .error ("invalid date") := by
  decide

/-- C3 amended: the elapsed-millisecond implementation keeps all the guards of
the calendar-field implementation, pre-1970 and calendar-validity included
(given the same clock value the two fail with exactly the same errors), and
differs only in the success arithmetic: it returns the absolute difference
between 1970 and the UTC year of the Date built from now minus birth. -/
theorem claim3_elapsed_ms_implementation (p : Subject) (now : JSDate) :
    (∀ e, RootModule.calculateAge p now = .error e ↔ UtilsModule.calculateAge p now = .error e) ∧
    (∀ b, p = Subject.obj (some (BirthVal.date b)) →
      (∃ n, RootModule.calculateAge p now = .ok n) →
      RootModule.calculateAge p now =
        .ok (((utcFullYearOfMs (msValue now - msValue b) - 1970).natAbs : Int))) := by
  constructor
  · intro e
    cases p with
    | nullish => exact Iff.rfl
    | obj ob =>
      cases ob with
      | none => exact Iff.rfl
      | some bv =>
        cases bv with
        | notDate => exact Iff.rfl
        | invalidDate => exact Iff.rfl
        | date b =>
          simp only [RootModule.calculateAge, UtilsModule.calculateAge]
          split_ifs <;> simp
  · intro b hb hok
    subst hb
    obtain ⟨n, hn⟩ := hok
    simp only [RootModule.calculateAge] at hn ⊢
    split_ifs at hn ⊢
    rfl

theorem claim3_elapsed_ms_implementation_witness :
    (∃ n, RootModule.calculateAge (.obj (some (.date ⟨1991, 10, 7, 0⟩))) ⟨2026, 11, 1, 0⟩ = .ok n) ∧
    RootModule.calculateAge (.obj (some (.date ⟨1991, 10, 7, 0⟩))) ⟨2026, 11, 1, 0⟩ =
      .ok (((utcFullYearOfMs (msValue ⟨2026, 11, 1, 0⟩ - msValue ⟨1991, 10, 7, 0⟩) - 1970).natAbs : Int)) :=
  ⟨⟨35, by decide⟩,
    (claim3_elapsed_ms_implementation (.obj (some (.date ⟨1991, 10, 7, 0⟩))) ⟨2026, 11, 1, 0⟩).2
      ⟨1991, 10, 7, 0⟩ rfl ⟨35, by decide⟩⟩

/-- C4: validateAge fails with kind INVALID_DATE exactly when the input is
not a well-formed Date (not a Date instance, or a NaN time value) or lies
strictly after the clock value read at call time; on every other input it
either returns normally or fails with kind INVALID_AGE. -/
theorem claim4_validateAge_invalid_date_iff (b : BirthVal) (now : JSDate) :
    ((∃ m, Validator.validateAge b now = .error ⟨"INVALID_DATE", m⟩) ↔
      (b = .notDate ∨ b = .invalidDate ∨ ∃ d, b = .date d ∧ dateLt now d)) ∧
    (¬(b = .notDate ∨ b = .invalidDate ∨ ∃ d, b = .date d ∧ dateLt now d) →
      Validator.validateAge b now = .ok () ∨
        Validator.validateAge b now = .error ⟨"INVALID_AGE", "Must be at least 18 years old"⟩) := by
  cases b with
  | notDate =>
    refine ⟨⟨fun _ => Or.inl rfl, fun _ => ⟨"Birth date is invalid", rfl⟩⟩, ?_⟩
    intro h; exact absurd (Or.inl rfl) h
  | invalidDate =>
    refine ⟨⟨fun _ => Or.inr (Or.inl rfl), fun _ => ⟨"Birth date is invalid", rfl⟩⟩, ?_⟩
    intro h; exact absurd (Or.inr (Or.inl rfl)) h
  | date d =>
    by_cases hlt : dateLt now d
    · have hc : Validator.validateAge (.date d) now =
          .error ⟨"INVALID_DATE", "Birth date cannot be in the future"⟩ := by
        simp only [Validator.validateAge]; rw [if_pos hlt]
      refine ⟨⟨fun _ => Or.inr (Or.inr ⟨d, rfl, hlt⟩),
        fun _ => ⟨"Birth date cannot be in the future", hc⟩⟩, ?_⟩
      intro h; exact absurd (Or.inr (Or.inr ⟨d, rfl, hlt⟩)) h
    · have hc : Validator.validateAge (.date d) now = .ok () ∨
          Validator.validateAge (.date d) now =
            .error ⟨"INVALID_AGE", "Must be at least 18 years old"⟩ := by
        simp only [Validator.validateAge]
        rw [if_neg hlt]
        split
        · split
          · exact Or.inr rfl
          · exact Or.inl rfl
        · split
          · exact Or.inr rfl
          · exact Or.inl rfl
      constructor
      · constructor
        · rintro ⟨m, hm⟩
          rcases hc with h | h <;> rw [h] at hm
          · exact (nomatch hm)
          · simp only [Except.error.injEq, Validator.VError.mk.injEq] at hm
            exact absurd hm.1 (by decide)
        · rintro (h | h | ⟨d2, hd2, hlt2⟩)
          · exact (nomatch h)
          · exact (nomatch h)
          · cases hd2; exact absurd hlt2 hlt
      · intro _; exact hc

theorem claim4_validateAge_invalid_date_iff_witness :
    ¬((BirthVal.date ⟨1990, 0, 1, 0⟩) = .notDate ∨ (BirthVal.date ⟨1990, 0, 1, 0⟩) = .invalidDate ∨
        ∃ d, (BirthVal.date ⟨1990, 0, 1, 0⟩) = .date d ∧ dateLt ⟨2020, 0, 1, 0⟩ d) ∧
    (Validator.validateAge (.date ⟨1990, 0, 1, 0⟩) ⟨2020, 0, 1, 0⟩ = .ok () ∨
      Validator.validateAge (.date ⟨1990, 0, 1, 0⟩) ⟨2020, 0, 1, 0⟩ =
        .error ⟨"INVALID_AGE", "Must be at least 18 years old"⟩) := by
  have hno : ¬((BirthVal.date ⟨1990, 0, 1, 0⟩) = .notDate ∨ (BirthVal.date ⟨1990, 0, 1, 0⟩) = .invalidDate ∨
      ∃ d, (BirthVal.date ⟨1990, 0, 1, 0⟩) = .date d ∧ dateLt ⟨2020, 0, 1, 0⟩ d) := by
    rintro (h | h | ⟨d, hd, hlt⟩)
    · exact (nomatch h)
    · exact (nomatch h)
    · cases hd; exact absurd hlt (by decide)
  exact ⟨hno, (claim4_validateAge_invalid_date_iff (.date ⟨1990, 0, 1, 0⟩) ⟨2020, 0, 1, 0⟩).2 hno⟩

/-- Shape of validateAge on a well-formed, non-future birth Date: the age is
the year difference, reduced by one when the anniversary has not yet occurred,
and the outcome is the INVALID_AGE failure exactly when that age is below
18. -/
theorem validateAge_eq (b now : JSDate) (hlt : ¬ dateLt now b) :
    Validator.validateAge (.date b) now =
      if (if b.getMonth < now.getMonth ∨ (now.getMonth = b.getMonth ∧ b.getDate ≤ now.getDate)
          then now.getFullYear - b.getFullYear
          else now.getFullYear - b.getFullYear - 1) < 18
      then .error ⟨"INVALID_AGE", "Must be at least 18 years old"⟩
      else .ok () := by
  simp only [Validator.validateAge, if_neg hlt]
  split_ifs <;> rfl

/-- C5: a birth date lying exactly 18 years before the clock date, with the
same month and day, passes validateAge (the exact anniversary day counts as
the birthday having occurred); the calendar day one past that boundary fails
with kind INVALID_AGE. -/
theorem claim5_validateAge_eighteen_boundary (now : JSDate) (ms : Nat)
    (hreal : IsRealDate ⟨now.getFullYear - 18, now.getMonth, now.getDate⟩) :
    Validator.validateAge (.date ⟨now.getFullYear - 18, now.getMonth, now.getDate, ms⟩) now = .ok () ∧
    Validator.validateAge
      (.date ⟨(nextDay ⟨now.getFullYear - 18, now.getMonth, now.getDate⟩).year,
              (nextDay ⟨now.getFullYear - 18, now.getMonth, now.getDate⟩).month,
              (nextDay ⟨now.getFullYear - 18, now.getMonth, now.getDate⟩).day, ms⟩) now =
      .error ⟨"INVALID_AGE", "Must be at least 18 years old"⟩ := by
  clear hreal
  obtain ⟨Y, M, D, ms2⟩ := now
  dsimp only
  constructor
  · have hlt1 : ¬ dateLt ⟨Y, M, D, ms2⟩ ⟨Y - 18, M, D, ms⟩ := by
      simp only [dateLt]; omega
    rw [validateAge_eq _ _ hlt1]
    dsimp only
    have hH : M < M ∨ (M = M ∧ D ≤ D) := by omega
    rw [if_pos hH]
    have hA : ¬ (Y - (Y - 18) < 18) := by omega
    rw [if_neg hA]
  · unfold nextDay
    dsimp only
    by_cases h1 : D < daysInMonth (Y - 18) M
    · rw [if_pos h1]
      dsimp only
      have hlt1 : ¬ dateLt ⟨Y, M, D, ms2⟩ ⟨Y - 18, M, D + 1, ms⟩ := by
        simp only [dateLt]; omega
      rw [validateAge_eq _ _ hlt1]
      dsimp only
      have hH : ¬ (M < M ∨ (M = M ∧ D + 1 ≤ D)) := by omega
      rw [if_neg hH]
      have hA : Y - (Y - 18) - 1 < 18 := by omega
      rw [if_pos hA]
    · rw [if_neg h1]
      by_cases h2 : M < 11
      · rw [if_pos h2]
        dsimp only
        have hlt1 : ¬ dateLt ⟨Y, M, D, ms2⟩ ⟨Y - 18, M + 1, 1, ms⟩ := by
          simp only [dateLt]; omega
        rw [validateAge_eq _ _ hlt1]
        dsimp only
        have hH : ¬ (M + 1 < M ∨ (M = M + 1 ∧ 1 ≤ D)) := by omega
        rw [if_neg hH]
        have hA : Y - (Y - 18) - 1 < 18 := by omega
        rw [if_pos hA]
      · rw [if_neg h2]
        dsimp only
        have hlt1 : ¬ dateLt ⟨Y, M, D, ms2⟩ ⟨Y - 18 + 1, 0, 1, ms⟩ := by
          simp only [dateLt]; omega
        rw [validateAge_eq _ _ hlt1]
        dsimp only
        have hH : 0 < M ∨ (M = 0 ∧ 1 ≤ D) := by omega
        rw [if_pos hH]
        have hA : Y - (Y - 18 + 1) < 18 := by omega
        rw [if_pos hA]

theorem claim5_validateAge_eighteen_boundary_witness :
    IsRealDate ⟨(2026 : Int) - 18, 11, 1⟩ ∧
    (Validator.validateAge (.date ⟨(2026 : Int) - 18, 11, 1, 0⟩) ⟨2026, 11, 1, 0⟩ = .ok () ∧
      Validator.validateAge
        (.date ⟨(nextDay ⟨(2026 : Int) - 18, 11, 1⟩).year,
                (nextDay ⟨(2026 : Int) - 18, 11, 1⟩).month,
                (nextDay ⟨(2026 : Int) - 18, 11, 1⟩).day, 0⟩) ⟨2026, 11, 1, 0⟩ =
        .error ⟨"INVALID_AGE", "Must be at least 18 years old"⟩) :=
  ⟨by decide, claim5_validateAge_eighteen_boundary ⟨2026, 11, 1, 0⟩ 0 (by decide)⟩

/-- C9 counterexample: validateAge reads the wall clock internally, so two
runs on the very same input can disagree when the clock has moved: a subject
born 2000-06-15 is rejected as under age on 2018-06-14 and accepted on
2018-06-16.  The clock is hidden state that influences the outcome, refuting
the claim that no hidden state does. -/
theorem claim9_counterexample :
    ¬ (∀ (b : BirthVal) (t1 t2 : JSDate),
        Validator.validateAge b t1 = Validator.validateAge b t2) := by
  intro h
  exact absurd (h (.date ⟨2000, 5, 15, 0⟩) ⟨2018, 5, 14, 0⟩ ⟨2018, 5, 16, 0⟩) (by decide)

/-- C9 amended: every validator is a deterministic function of its explicit
input together with, for validateAge only, the clock reading made during the
call: two runs with the same input and the same clock value always yield the
same outcome and failure kind.  In the embedding, where the clock read is the
explicit now parameter, this determinism is definitional; the substantive
content of the correction is the counterexample showing the outcome does
depend on the clock. -/
theorem claim9_validators_deterministic :
    (∀ (b : BirthVal) (now : JSDate),
      Validator.validateAge b now = Validator.validateAge b now) ∧
    (∀ x, Validator.validatePostCode x = Validator.validatePostCode x) ∧
    (∀ x, Validator.validateIdentity x = Validator.validateIdentity x) ∧
    (∀ x, Validator.validateEmail x = Validator.validateEmail x) ∧
    (∀ x, Validator.validateTown x = Validator.validateTown x) :=
  ⟨fun _ _ => rfl, fun _ => rfl, fun _ => rfl, fun _ => rfl, fun _ => rfl⟩

theorem xssTest_iff (s : List Char) :
    Validator.xssTest s = true ↔ ∃ pre suf, s = pre ++ '<' :: suf := by
  unfold Validator.xssTest
  rw [List.any_eq_true]
  constructor
  · rintro ⟨c, hc, he⟩
    rw [decide_eq_true_eq] at he
    subst he
    exact List.append_of_mem hc
  · rintro ⟨pre, suf, rfl⟩
    exact ⟨'<', by simp, by simp⟩

theorem nameFormatTest_iff (s : List Char) :
    Validator.nameFormatTest s = true ↔
      (s ≠ [] ∧ ∀ c, c ∈ s → Validator.isNameChar c = true) := by
  unfold Validator.nameFormatTest
  rw [Bool.and_eq_true, List.all_eq_true]
  simp

/-- C6: validateIdentity checks in this precedence: a non-string fails with
the Invalid name message; otherwise a string containing an open angle bracket
followed by a (possibly empty) run of non-closing-bracket characters, which
is exactly a string containing an open angle bracket, fails as XSS before the
character-set check runs; otherwise an empty string or one with a character
outside the letter, accented-letter, hyphen class fails the character check;
otherwise the validator returns normally. -/
theorem claim6_validateIdentity_precedence (x : StrInput) :
    (Validator.validateIdentity x = .error ⟨"INVALID_IDENTITY", "Invalid name"⟩ ↔ x = .notString) ∧
    (Validator.validateIdentity x = .error ⟨"INVALID_IDENTITY", "XSS detected"⟩ ↔
      ∃ s, x = .str s ∧ ∃ pre suf, s = pre ++ '<' :: suf) ∧
    (Validator.validateIdentity x = .error ⟨"INVALID_IDENTITY", "Invalid characters in name"⟩ ↔
      ∃ s, x = .str s ∧ (¬ ∃ pre suf, s = pre ++ '<' :: suf) ∧
        (s = [] ∨ ∃ c, c ∈ s ∧ Validator.isNameChar c = false)) ∧
    (Validator.validateIdentity x = .ok () ↔
      ∃ s, x = .str s ∧ s ≠ [] ∧ ∀ c, c ∈ s → Validator.isNameChar c = true) := by
  cases x with
  | notString =>
    refine ⟨by simp [Validator.validateIdentity], ?_, ?_, ?_⟩
    · constructor
      · intro h
        simp only [Validator.validateIdentity, Except.error.injEq, Validator.VError.mk.injEq] at h
        exact absurd h.2 (by decide)
      · rintro ⟨s, hs, _⟩; exact (nomatch hs)
    · constructor
      · intro h
        simp only [Validator.validateIdentity, Except.error.injEq, Validator.VError.mk.injEq] at h
        exact absurd h.2 (by decide)
      · rintro ⟨s, hs, _⟩; exact (nomatch hs)
    · constructor
      · intro h
        simp only [Validator.validateIdentity] at h
        exact (nomatch h)
      · rintro ⟨s, hs, _⟩; exact (nomatch hs)
  | str s =>
    by_cases hx : Validator.xssTest s = true
    · have hc : Validator.validateIdentity (.str s) = .error ⟨"INVALID_IDENTITY", "XSS detected"⟩ := by
        simp only [Validator.validateIdentity]
        rw [if_pos hx]
      rw [hc]
      refine ⟨?_, ?_, ?_, ?_⟩
      · constructor
        · intro h
          simp only [Except.error.injEq, Validator.VError.mk.injEq] at h
          exact absurd h.2 (by decide)
        · intro h; exact (nomatch h)
      · exact ⟨fun _ => ⟨s, rfl, (xssTest_iff s).mp hx⟩, fun _ => rfl⟩
      · constructor
        · intro h
          simp only [Except.error.injEq, Validator.VError.mk.injEq] at h
          exact absurd h.2 (by decide)
        · rintro ⟨s2, hs2, hno, _⟩
          cases hs2
          exact absurd ((xssTest_iff s).mp hx) hno
      · constructor
        · intro h; exact (nomatch h)
        · rintro ⟨s2, hs2, hne, hall⟩
          cases hs2
          obtain ⟨pre, suf, hsplit⟩ := (xssTest_iff s).mp hx
          have hmem : '<' ∈ s := by rw [hsplit]; simp
          exact absurd (hall '<' hmem) (by decide)
    · by_cases hf : Validator.nameFormatTest s = true
      · have hc : Validator.validateIdentity (.str s) = .ok () := by
          simp only [Validator.validateIdentity]
          rw [if_neg hx, if_pos hf]
        rw [hc]
        refine ⟨?_, ?_, ?_, ?_⟩
        · exact ⟨fun h => (nomatch h), fun h => (nomatch h)⟩
        · constructor
          · intro h; exact (nomatch h)
          · rintro ⟨s2, hs2, hdec⟩
            cases hs2
            exact absurd ((xssTest_iff s).mpr hdec) hx
        · constructor
          · intro h; exact (nomatch h)
          · rintro ⟨s2, hs2, hno, hbad⟩
            cases hs2
            obtain ⟨hne, hall⟩ := (nameFormatTest_iff s).mp hf
            rcases hbad with h | ⟨c, hcm, hcf⟩
            · exact absurd h hne
            · rw [hall c hcm] at hcf; exact (nomatch hcf)
        · exact ⟨fun _ => ⟨s, rfl, (nameFormatTest_iff s).mp hf⟩, fun _ => rfl⟩
      · have hc : Validator.validateIdentity (.str s) =
            .error ⟨"INVALID_IDENTITY", "Invalid characters in name"⟩ := by
          simp only [Validator.validateIdentity]
          rw [if_neg hx, if_neg hf]
        rw [hc]
        have honot : ¬(s ≠ [] ∧ ∀ c, c ∈ s → Validator.isNameChar c = true) :=
          fun hcon => hf ((nameFormatTest_iff s).mpr hcon)
        refine ⟨?_, ?_, ?_, ?_⟩
        · constructor
          · intro h
            simp only [Except.error.injEq, Validator.VError.mk.injEq] at h
            exact absurd h.2 (by decide)
          · intro h; exact (nomatch h)
        · constructor
          · intro h
            simp only [Except.error.injEq, Validator.VError.mk.injEq] at h
            exact absurd h.2 (by decide)
          · rintro ⟨s2, hs2, hdec⟩
            cases hs2
            exact absurd ((xssTest_iff s).mpr hdec) hx
        · constructor
          · intro _
            refine ⟨s, rfl, fun hdec => hx ((xssTest_iff s).mpr hdec), ?_⟩
            by_cases h0 : s = []
            · exact Or.inl h0
            · right
              by_contra hbad2
              push_neg at hbad2
              refine honot ⟨h0, fun c hcm => ?_⟩
              have h2 := hbad2 c hcm
              revert h2
              cases Validator.isNameChar c <;> simp
          · intro _; rfl
        · constructor
          · intro h; exact (nomatch h)
          · rintro ⟨s2, hs2, hne, hall⟩
            cases hs2
            exact absurd ⟨hne, hall⟩ honot

theorem isEmpty_false_iff (l : List Char) : l.isEmpty = false ↔ l ≠ [] := by
  cases l <;> simp

theorem splitFirst_eq_some (sep : Char) (s pre suf : List Char)
    (h : Validator.splitFirst sep s = some (pre, suf)) :
    s = pre ++ sep :: suf ∧ sep ∉ pre := by
  induction s generalizing pre suf with
  | nil => simp [Validator.splitFirst] at h
  | cons c cs ih =>
    simp only [Validator.splitFirst] at h
    by_cases hc : c = sep
    · rw [if_pos hc] at h
      simp only [Option.some.injEq, Prod.mk.injEq] at h
      obtain ⟨h1, h2⟩ := h
      subst h1
      subst h2
      simp [hc]
    · rw [if_neg hc] at h
      cases hsp : Validator.splitFirst sep cs with
      | none => rw [hsp] at h; exact (nomatch h)
      | some pq =>
        obtain ⟨p, q⟩ := pq
        rw [hsp] at h
        simp only [Option.some.injEq, Prod.mk.injEq] at h
        obtain ⟨h1, h2⟩ := h
        subst h1
        subst h2
        obtain ⟨ih1, ih2⟩ := ih p q hsp
        refine ⟨by rw [List.cons_append, ih1], ?_⟩
        intro hmem
        rcases List.mem_cons.mp hmem with h1 | h1
        · exact hc h1.symm
        · exact ih2 h1

theorem splitFirst_append (sep : Char) (pre suf : List Char) (hpre : sep ∉ pre) :
    Validator.splitFirst sep (pre ++ sep :: suf) = some (pre, suf) := by
  induction pre with
  | nil =>
    rw [List.nil_append]
    simp [Validator.splitFirst]
  | cons c cs ih =>
    have hc : ¬ c = sep := fun h => hpre (by rw [h]; exact List.mem_cons_self sep cs)
    have ih2 := ih (fun hm => hpre (List.mem_cons_of_mem c hm))
    rw [List.cons_append]
    simp only [Validator.splitFirst, if_neg hc, ih2]

theorem emailMatch_iff (s : List Char) :
    Validator.emailMatch s = true ↔
      ∃ locPart dom tld, s = locPart ++ '@' :: (dom ++ '.' :: tld) ∧
        locPart ≠ [] ∧ (∀ c, c ∈ locPart → Validator.isLocalChar c = true) ∧
        dom ≠ [] ∧ (∀ c, c ∈ dom → Validator.isDomainChar c = true) ∧
        2 ≤ tld.length ∧ (∀ c, c ∈ tld → Validator.isTldChar c = true) := by
  constructor
  · intro h
    unfold Validator.emailMatch at h
    split at h
    · exact (nomatch h)
    · rename_i locPart rest heq1
      split at h
      · exact (nomatch h)
      · rename_i revTld revDom heq2
        simp only [Bool.and_eq_true, Bool.not_eq_true', decide_eq_true_eq,
          List.all_eq_true] at h
        obtain ⟨⟨⟨⟨⟨hl1, hl2⟩, hd1⟩, hd2⟩, ht1⟩, ht2⟩ := h
        obtain ⟨hs1, _⟩ := splitFirst_eq_some '@' s locPart rest heq1
        obtain ⟨hs2, _⟩ := splitFirst_eq_some '.' rest.reverse revTld revDom heq2
        have hrest : rest = revDom.reverse ++ '.' :: revTld.reverse := by
          have h3 := congrArg List.reverse hs2
          rwa [List.reverse_reverse, List.reverse_append, List.reverse_cons,
            List.append_assoc, List.singleton_append] at h3
        refine ⟨locPart, revDom.reverse, revTld.reverse, ?_, ?_, ?_, ?_, ?_, ?_, ?_⟩
        · rw [hs1, hrest]
        · exact (isEmpty_false_iff locPart).mp hl1
        · exact fun c hm => hl2 c hm
        · intro h0
          exact (isEmpty_false_iff revDom).mp hd1 (List.reverse_eq_nil_iff.mp h0)
        · exact fun c hm => hd2 c (List.mem_reverse.mp hm)
        · rw [List.length_reverse]; exact ht1
        · exact fun c hm => ht2 c (List.mem_reverse.mp hm)
  · rintro ⟨locPart, dom, tld, rfl, hl1, hl2, hd1, hd2, ht1, ht2⟩
    have hat : '@' ∉ locPart := fun hm => absurd (hl2 '@' hm) (by decide)
    have hdot : '.' ∉ tld.reverse :=
      fun hm => absurd (ht2 '.' (List.mem_reverse.mp hm)) (by decide)
    have hs1 := splitFirst_append '@' locPart (dom ++ '.' :: tld) hat
    have hrev : (dom ++ '.' :: tld).reverse = tld.reverse ++ '.' :: dom.reverse := by
      rw [List.reverse_append, List.reverse_cons, List.append_assoc, List.singleton_append]
    have hs2 := splitFirst_append '.' tld.reverse dom.reverse hdot
    unfold Validator.emailMatch
    simp only [hs1, hrev, hs2, Bool.and_eq_true, Bool.not_eq_true', decide_eq_true_eq,
      List.all_eq_true, List.length_reverse, List.mem_reverse, isEmpty_false_iff]
    refine ⟨⟨⟨⟨⟨hl1, hl2⟩, ?_⟩, fun c hm => hd2 c hm⟩, ht1⟩, fun c hm => ht2 c hm⟩
    intro h0
    exact hd1 (List.reverse_eq_nil_iff.mp h0)

/-- C7: validateEmail accepts exactly the strings that decompose, anchored at
both ends, as local at-sign domain dot tld with local one-or-more characters
of the local class, domain one-or-more of the domain class and tld two-or-more
letters; every other input fails with kind INVALID_EMAIL; the spec examples
behave accordingly. -/
theorem claim7_validateEmail_spec :
    (∀ x, Validator.validateEmail x = .ok () ↔
      ∃ s locPart dom tld, x = .str s ∧ s = locPart ++ '@' :: (dom ++ '.' :: tld) ∧
        locPart ≠ [] ∧ (∀ c, c ∈ locPart → Validator.isLocalChar c = true) ∧
        dom ≠ [] ∧ (∀ c, c ∈ dom → Validator.isDomainChar c = true) ∧
        2 ≤ tld.length ∧ (∀ c, c ∈ tld → Validator.isTldChar c = true)) ∧
    (∀ x, Validator.validateEmail x = .ok () ∨
      Validator.validateEmail x = .error ⟨"INVALID_EMAIL", "Invalid email format"⟩) ∧
    Validator.validateEmail (.str ("test@gmail.com").toList) = .ok () ∧
    Validator.validateEmail (.str ("test@").toList) =
      .error ⟨"INVALID_EMAIL", "Invalid email format"⟩ ∧
    Validator.validateEmail (.str ("@example.com").toList) =
      .error ⟨"INVALID_EMAIL", "Invalid email format"⟩ ∧
    Validator.validateEmail (.str ("test.com").toList) =
      .error ⟨"INVALID_EMAIL", "Invalid email format"⟩ ∧
    Validator.validateEmail (.str ("//test@gmail.com").toList) =
      .error ⟨"INVALID_EMAIL", "Invalid email format"⟩ := by
  refine ⟨?_, ?_, by decide, by decide, by decide, by decide, by decide⟩
  · intro x
    cases x with
    | notString =>
      constructor
      · intro h; exact (nomatch h)
      · rintro ⟨s, l, d, t, hs, _⟩; exact (nomatch hs)
    | str s =>
      simp only [Validator.validateEmail]
      by_cases he : Validator.emailMatch s = true
      · rw [if_pos he]
        constructor
        · intro _
          obtain ⟨l, d, t, h1, h2⟩ := (emailMatch_iff s).mp he
          exact ⟨s, l, d, t, rfl, h1, h2⟩
        · intro _; rfl
      · rw [if_neg he]
        constructor
        · intro h; exact (nomatch h)
        · rintro ⟨s2, l, d, t, hs2, hrest⟩
          cases hs2
          exact absurd ((emailMatch_iff s).mpr ⟨l, d, t, hrest⟩) he
  · intro x
    cases x with
    | notString => exact Or.inr rfl
    | str s =>
      simp only [Validator.validateEmail]
      by_cases he : Validator.emailMatch s = true
      · rw [if_pos he]; exact Or.inl rfl
      · rw [if_neg he]; exact Or.inr rfl

theorem claim6_validateIdentity_precedence_witness :
    Validator.validateIdentity (.str ("Jean-Michel").toList) = .ok () ∧
    Validator.validateIdentity (.str ("<b").toList) =
      .error ⟨"INVALID_IDENTITY", "XSS detected"⟩ :=
  ⟨(claim6_validateIdentity_precedence (.str ("Jean-Michel").toList)).2.2.2.mpr
      ⟨("Jean-Michel").toList, rfl, by decide, by decide⟩,
    (claim6_validateIdentity_precedence (.str ("<b").toList)).2.1.mpr
      ⟨("<b").toList, rfl, [], ['b'], rfl⟩⟩

theorem claim7_validateEmail_spec_witness :
    Validator.validateEmail (.str ("a@b.co").toList) = .ok () :=
  (claim7_validateEmail_spec.1 (.str ("a@b.co").toList)).mpr
    ⟨("a@b.co").toList, ['a'], ['b'], ['c', 'o'], rfl, by decide, by decide, by decide,
      by decide, by decide, by decide, by decide⟩

theorem toMsg_eq_none_iff (e : Except Validator.VError Unit) :
    Form.toMsg e = none ↔ e = .ok () := by
  cases e with
  | ok u => cases u; simp [Form.toMsg]
  | error err => simp [Form.toMsg]

theorem lastnameGate_iff (now : JSDate) (parse : List Char → BirthVal) (v : List Char) :
    Form.fieldNewError now parse .lastname v = none ↔
      (Form.isBlank v = false ∧ Validator.validateIdentity (.str v) = .ok ()) := by
  unfold Form.fieldNewError
  by_cases hb : Form.isBlank v = true
  · rw [if_pos hb]
    simp [hb]
  · rw [if_neg hb]
    rw [Bool.not_eq_true] at hb
    simp only [Form.validateField]
    rw [toMsg_eq_none_iff]
    simp [hb]

theorem firstnameGate_iff (now : JSDate) (parse : List Char → BirthVal) (v : List Char) :
    Form.fieldNewError now parse .firstname v = none ↔
      (Form.isBlank v = false ∧ Validator.validateIdentity (.str v) = .ok ()) := by
  unfold Form.fieldNewError
  by_cases hb : Form.isBlank v = true
  · rw [if_pos hb]
    simp [hb]
  · rw [if_neg hb]
    rw [Bool.not_eq_true] at hb
    simp only [Form.validateField]
    rw [toMsg_eq_none_iff]
    simp [hb]

theorem emailGate_iff (now : JSDate) (parse : List Char → BirthVal) (v : List Char) :
    Form.fieldNewError now parse .email v = none ↔
      (Form.isBlank v = false ∧ Validator.validateEmail (.str v) = .ok ()) := by
  unfold Form.fieldNewError
  by_cases hb : Form.isBlank v = true
  · rw [if_pos hb]
    simp [hb]
  · rw [if_neg hb]
    rw [Bool.not_eq_true] at hb
    simp only [Form.validateField]
    rw [toMsg_eq_none_iff]
    simp [hb]

theorem birthGate_iff (now : JSDate) (parse : List Char → BirthVal) (v : List Char) :
    Form.fieldNewError now parse .birth v = none ↔
      (Form.isBlank v = false ∧ Validator.validateAge (parse v) now = .ok ()) := by
  unfold Form.fieldNewError
  by_cases hb : Form.isBlank v = true
  · rw [if_pos hb]
    simp [hb]
  · rw [if_neg hb]
    rw [Bool.not_eq_true] at hb
    have hv : ¬ v = [] := by
      intro h0; subst h0; exact (nomatch hb)
    simp only [Form.validateField]
    rw [if_neg hv]
    rw [toMsg_eq_none_iff]
    simp [hb]

theorem postCodeGate_iff (now : JSDate) (parse : List Char → BirthVal) (v : List Char) :
    Form.fieldNewError now parse .postCode v = none ↔
      (Form.isBlank v = false ∧ Validator.validatePostCode (.str v) = .ok ()) := by
  unfold Form.fieldNewError
  by_cases hb : Form.isBlank v = true
  · rw [if_pos hb]
    simp [hb]
  · rw [if_neg hb]
    rw [Bool.not_eq_true] at hb
    simp only [Form.validateField]
    rw [toMsg_eq_none_iff]
    simp [hb]

theorem townGate_iff (now : JSDate) (parse : List Char → BirthVal) (v : List Char) :
    Form.fieldNewError now parse .town v = none ↔
      (Form.isBlank v = false ∧ Validator.validateTown (.str v) = .ok ()) := by
  unfold Form.fieldNewError
  by_cases hb : Form.isBlank v = true
  · rw [if_pos hb]
    simp [hb]
  · rw [if_neg hb]
    rw [Bool.not_eq_true] at hb
    simp only [Form.validateField]
    rw [toMsg_eq_none_iff]
    simp [hb]

/-- C8: the derived submittable flag of validateForm (allFilled and noErrors,
the value stored in isValid that gates the submit button) is true exactly when
every one of the six fields is non-empty after trimming and passes its own
validator without a failure. -/
theorem claim8_submittable_iff (now : JSDate) (parse : List Char → BirthVal)
    (f : Form.FormState) :
    Form.submittable now parse f = true ↔
      ((Form.isBlank f.lastname = false ∧ Validator.validateIdentity (.str f.lastname) = .ok ()) ∧
       (Form.isBlank f.firstname = false ∧ Validator.validateIdentity (.str f.firstname) = .ok ()) ∧
       (Form.isBlank f.email = false ∧ Validator.validateEmail (.str f.email) = .ok ()) ∧
       (Form.isBlank f.birth = false ∧ Validator.validateAge (parse f.birth) now = .ok ()) ∧
       (Form.isBlank f.postCode = false ∧ Validator.validatePostCode (.str f.postCode) = .ok ()) ∧
       (Form.isBlank f.town = false ∧ Validator.validateTown (.str f.town) = .ok ())) := by
  unfold Form.submittable Form.allFilled Form.noErrors
  simp only [Bool.and_eq_true, Bool.not_eq_true', Option.isNone_iff_eq_none]
  rw [lastnameGate_iff, firstnameGate_iff, emailGate_iff, birthGate_iff,
    postCodeGate_iff, townGate_iff]
  tauto
